import Mathlib

/-!
Verification of the FISHscale claims against a shallow embedding of
`graphNN/models.py`, `utils/dataset.py` and
`visualization/primitiveVis_open3dv2.py`.

Real-valued tensors are modelled over `ℝ` (lists of reals for vectors,
lists of rows for 2-d tensors); neural sub-modules whose internals live in
files outside the repository snapshot (`Classifier` from `submodules.py`,
the DGL convolution kernels) are carried as abstract functions or as the
concrete configuration records built at their call sites, which is all the
claims refer to.
-/

namespace FISHscale

noncomputable section

/-! ### Torch primitives shared by several claims -/

/-- Sigmoid, `torch.sigmoid(x) = 1 / (1 + exp(-x))`. -/
def sigmoid (x : ℝ) : ℝ := 1 / (1 + Real.exp (-x))

/-- `torch.nn.functional.logsigmoid`. -/
def logsigmoid (x : ℝ) : ℝ := Real.log (sigmoid x)

/-- `tensor.mean()` for a flat list of reals (an empty tensor gives `0 / 0 = 0`). -/
def meanList (l : List ℝ) : ℝ := l.sum / l.length

/-- Dot product of two feature vectors; this is `(u * v).sum(-1)`. -/
def dotProd (u v : List ℝ) : ℝ := (List.zipWith (fun a b => a * b) u v).sum

/-! ### `CrossEntropyLoss.forward` (models.py lines 12-28)

`pos_graph.apply_edges(fn.u_mul_v('h', 'h', 'score'))` followed by
`pos_score.sum(-1)` computes, for every edge, the dot product of the
embeddings of its two endpoints. -/

/-- Per-edge scores: dot products of the endpoint embeddings. -/
def edgeScores (emb : ℕ → List ℝ) (edges : List (ℕ × ℕ)) : List ℝ :=
  edges.map (fun e => dotProd (emb e.1) (emb e.2))

/-- `-F.logsigmoid(pos_score.sum(-1)).mean()` as a function of the edge scores. -/
def posLossScores (scores : List ℝ) : ℝ :=
  meanList (scores.map (fun s => -logsigmoid s))

/-- `-F.logsigmoid(-neg_score.sum(-1)).mean()` as a function of the edge scores. -/
def negLossScores (scores : List ℝ) : ℝ :=
  meanList (scores.map (fun s => -logsigmoid (-s)))

/-- `CrossEntropyLoss.forward(block_outputs, pos_graph, neg_graph)`:
returns the triple `(loss, pos_loss, neg_loss)` with `loss = pos_loss + neg_loss`. -/
def ceLossForward (emb : ℕ → List ℝ) (posEdges negEdges : List (ℕ × ℕ)) : ℝ × ℝ × ℝ :=
  let pos_loss := posLossScores (edgeScores emb posEdges)
  let neg_loss := negLossScores (edgeScores emb negEdges)
  (pos_loss + neg_loss, pos_loss, neg_loss)

/-! ### Tensors and torch losses used by `SAGELightning.training_step` -/

/-- A 2-d tensor as a list of rows. -/
abbrev Matrix := List (List ℝ)

/-- Row embedding view of a 2-d tensor: node `i` maps to row `i`. -/
def matEmb (m : Matrix) : ℕ → List ℝ := fun i => m.getD i []

/-- `F.softmax(v, dim=-1)` on one row. -/
def softmaxV (v : List ℝ) : List ℝ :=
  v.map (fun x => Real.exp x / (v.map Real.exp).sum)

/-- Row-wise softmax, `F.softmax(m, dim=-1)`. -/
def softmaxRows (m : Matrix) : Matrix := m.map softmaxV

/-- `torch.nn.CrossEntropyLoss()` with default mean reduction:
mean over rows of `log (sum exp logits) - logits[target]`. -/
def crossEntropyMean (logits : Matrix) (targets : List ℕ) : ℝ :=
  meanList ((List.zip logits targets).map
    (fun p => Real.log ((p.1.map Real.exp).sum) - p.1.getD p.2 0))

/-- One element of `BCEWithLogitsLoss`: `-(t * logsigmoid x + (1 - t) * logsigmoid (-x))`. -/
def bceElem (x t : ℝ) : ℝ := -(t * logsigmoid x + (1 - t) * logsigmoid (-x))

/-- `torch.nn.BCEWithLogitsLoss()` with default mean reduction over all elements. -/
def bceWithLogitsLoss (logits targets : Matrix) : ℝ :=
  meanList (List.flatten (List.zipWith (fun r t => List.zipWith bceElem r t) logits targets))

/-- `SAGELightning.loss_discriminator(latent_tensors, predict_true_class=True)`:
for each latent tensor `z_i`, logits are `domain_adaptation(z_i)` and the target is the
one-hot matrix with column `i` set to 1; the per-tensor BCE losses are summed. -/
def lossDiscriminator (da : List ℝ → List ℝ) (latents : List Matrix) : ℝ :=
  (latents.enum.map (fun iz =>
    let logits := iz.2.map da
    let targets := logits.map
      (fun row => (List.range row.length).map (fun j => if j = iz.1 then (1 : ℝ) else 0))
    bceWithLogitsLoss logits targets)).sum

/-- Euclidean norm of a row. -/
def norm2 (v : List ℝ) : ℝ := Real.sqrt (dotProd v v)

/-- `F.cosine_similarity` of two vectors, with torch's `eps = 1e-8` clamping. -/
def cosSim (u v : List ℝ) : ℝ :=
  dotProd u v / (max (norm2 u) (1e-8) * max (norm2 v) (1e-8))

/-- Column `j` of a 2-d tensor. -/
def matCol (m : Matrix) (j : ℕ) : List ℝ := m.map (fun row => row.getD j 0)

/-- Number of columns of a 2-d tensor (width of the first row). -/
def numCols (m : Matrix) : ℕ := (m.headD []).length

/-- `F.cosine_similarity(A, B, dim=0).mean()`: mean cosine of matching columns. -/
def cosSimDim0Mean (A B : Matrix) : ℝ :=
  meanList ((List.range (numCols A)).map (fun j => cosSim (matCol A j) (matCol B j)))

/-- `F.cosine_similarity(A, B, dim=1).mean()`: mean cosine of matching rows. -/
def cosSimDim1Mean (A B : Matrix) : ℝ :=
  meanList ((List.zip A B).map (fun p => cosSim p.1 p.2))

/-- `A @ R.T`. -/
def matMulT (A R : Matrix) : Matrix :=
  A.map (fun row => R.map (fun rrow => dotProd row rrow))

/-- Bone-fight regularization (models.py lines 123-124):
`-cos_sim(P @ ref.T, bu, dim=0).mean() + (-cos_sim(P @ ref.T, bu, dim=1).mean()) * 0.5`. -/
def boneFightLoss (probsU bu reference : Matrix) : ℝ :=
  -(cosSimDim0Mean (matMulT probsU reference) bu)
    + -(cosSimDim1Mean (matMulT probsU reference) bu) * 0.5

/-- Annealing factor computed in `training_step` (models.py line 135):
`2 / (1 + 10 ** (-(kappa) / 2000)) - 1`. -/
def kappaFactor (k : ℕ) : ℝ := 2 / (1 + (10 : ℝ) ^ (-((k : ℝ) / 2000))) - 1

/-- Data of one training batch as it reaches `training_step`: the module outputs on the
unlabelled and labelled message-flow blocks (`batch_pred_unlab`, `batch_pred_lab`), the
positive/negative graphs of both halves, the labels of the labelled batch, the input
features `bu` used by the bone-fight term (gene counts, or neighbourhood counts when
`smooth == False`), and the reference matrix. The graph-neural module itself is a DGL
network and enters only through its outputs `predU`/`predL`. -/
structure SupBatch where
  predU : Matrix
  predL : Matrix
  posU : List (ℕ × ℕ)
  negU : List (ℕ × ℕ)
  posL : List (ℕ × ℕ)
  negL : List (ℕ × ℕ)
  labels : List ℕ
  bu : Matrix
  reference : Matrix

/-- `CrossEntropyLoss.forward` on a module output matrix. -/
def ceLossMatrix (m : Matrix) (pos neg : List (ℕ × ℕ)) : ℝ × ℝ × ℝ :=
  ceLossForward (matEmb m) pos neg

/-- Bone-fight branch of the supervised loss. -/
def boneFightBranch (CF : List ℝ → List ℝ) (b : SupBatch) : ℝ :=
  boneFightLoss (softmaxRows (b.predU.map CF)) b.bu b.reference

/-- Unsupervised contrastive branch (the `loss` of the unlabelled batch). -/
def unsupBranch (b : SupBatch) : ℝ := (ceLossMatrix b.predU b.posU b.negU).1

/-- Label-classification cross-entropy branch (`classifier_loss`). -/
def classifierBranch (CF : List ℝ → List ℝ) (b : SupBatch) : ℝ :=
  crossEntropyMean (b.predL.map CF) b.labels

/-- Supervised contrastive branch (`supervised_loss` on the labelled batch). -/
def supContrastiveBranch (b : SupBatch) : ℝ := (ceLossMatrix b.predL b.posL b.negL).1

/-- Domain-adaptation discriminator branch (`classifier_domain_loss`). -/
def domainBranch (DA : List ℝ → List ℝ) (b : SupBatch) : ℝ :=
  lossDiscriminator DA [b.predU, b.predL]

/-- `SAGELightning.training_step` (models.py lines 66-145), returning the loss and the new
iteration counter. `CF` is the label classifier head `encoder_dict['CF']`, `DA` the
`domain_adaptation` classifier, both abstract sub-networks from `submodules.py`. The `kl`
argument carries the `self.kl = th.nn.KLDivLoss(...)` member created by the supervised
`__init__`; the body of `training_step` never reads it (its only mention is inside a
commented-out block, lines 126-130). The annealing factor of line 135 is computed and the
counter incremented, but the factor is not applied: the weighted combination on line 138 is
commented out and line 139 returns the unweighted sum. -/
def trainingStepLoss (supervised : Bool) (CF DA : List ℝ → List ℝ)
    (kl : Matrix → Matrix → ℝ) (b : SupBatch) (kappa : ℕ) : ℝ × ℕ :=
  let lpn := ceLossForward (matEmb b.predU) b.posU b.negU
  let loss := lpn.1
  if supervised then
    let sup := ceLossForward (matEmb b.predL) b.posL b.negL
    let supervised_loss := sup.1
    let labels_pred := b.predL.map CF
    let classifier_loss := crossEntropyMean labels_pred b.labels
    let classifier_domain_loss := lossDiscriminator DA [b.predU, b.predL]
    let probabilities_unlab := softmaxRows (b.predU.map CF)
    let bone_fight_loss := boneFightLoss probabilities_unlab b.bu b.reference
    let _annealing := kappaFactor kappa
    (bone_fight_loss + loss + classifier_loss + supervised_loss + classifier_domain_loss,
      kappa + 1)
  else
    (loss, kappa)

/-! ### `SAGE.__init__` / `Encoder.__init__` configuration (models.py lines 186-375) -/

/-- The `aggregator` argument: the string `'attentional'` selects `GATConv`, any other
DGL `SAGEConv` aggregator type selects `SAGEConv`. -/
inductive Aggregator where
  | attentional
  | meanAgg
  | poolAgg
  | gcnAgg
deriving DecidableEq

/-- Constructor arguments of a `Classifier` from `submodules.py` as passed at its two call
sites (`SAGE.__init__` and `Encoder.__init__`). -/
structure ClassifierArgs where
  n_input : ℕ
  n_labels : ℕ
  softmax : Bool
  reverse_gradients : Bool
deriving DecidableEq

/-- Configuration of one graph convolution layer appended in `Encoder.__init__`. -/
inductive ConvLayer where
  | gat (in_feats out_feats num_heads : ℕ) (feat_drop : ℝ)
  | sageConv (in_feats out_feats : ℕ) (agg : Aggregator) (feat_drop : ℝ)

/-- The `'GS'` layer list of `Encoder.__init__`: the loop over `range(0, n_layers - 1)`
appends one layer per index (input width `in_feats` and no feature dropout at index 0,
width `n_hidden` and dropout 0.2 afterwards), then one final layer is appended. -/
def encoderGSLayers (in_feats n_hidden n_layers : ℕ) (agg : Aggregator) : List ConvLayer :=
  ((List.range (n_layers - 1)).map (fun i =>
    let inf := if 0 < i then n_hidden else in_feats
    let fd : ℝ := if 0 < i then 0.2 else 0
    match agg with
    | Aggregator.attentional => ConvLayer.gat inf n_hidden 4 fd
    | a => ConvLayer.sageConv inf n_hidden a fd))
  ++ [match agg with
      | Aggregator.attentional => ConvLayer.gat n_hidden n_hidden 4 0.2
      | a => ConvLayer.sageConv n_hidden n_hidden a 0.2]

/-- Configuration of one `'FC'` entry of `Encoder.__init__`: the `hidden` blocks are
`Linear / BatchNorm / ReLU / Dropout` sequences, the final `latent` entry is a plain
deterministic `Linear(n_hidden, n_hidden)` (no sampling, no variational head). -/
inductive FCLayer where
  | hiddenBlock (in_feats out_feats : ℕ)
  | linearLatent (in_feats out_feats : ℕ)
deriving DecidableEq

/-- The `'FC'` list of `Encoder.__init__`: `n_layers - 1` hidden blocks
(`for x in range(1, n_layers)`) followed by the `latent` linear layer. -/
def encoderFC (n_hidden n_layers : ℕ) : List FCLayer :=
  ((List.range (n_layers - 1)).map (fun _ => FCLayer.hiddenBlock n_hidden n_hidden))
    ++ [FCLayer.linearLatent n_hidden n_hidden]

/-- The parts of a constructed `SAGE` module the claims refer to. -/
structure SAGEModule where
  n_layers : ℕ
  n_hidden : ℕ
  n_classes : ℕ
  supervised : Bool
  aggregator : Aggregator
  domain_adaptation : Option ClassifierArgs
  gsLayers : List ConvLayer
  fcLayers : List FCLayer
  cfHead : Option ClassifierArgs

/-- `SAGE.__init__` (models.py lines 191-217): the `domain_adaptation` classifier is
created if and only if `supervised`, with `n_input=n_hidden, n_labels=2, softmax=False,
reverse_gradients=True`; the encoder is built from the same arguments. -/
def sageInit (in_feats n_hidden n_classes n_layers : ℕ) (supervised : Bool)
    (agg : Aggregator) : SAGEModule :=
  { n_layers := n_layers
    n_hidden := n_hidden
    n_classes := n_classes
    supervised := supervised
    aggregator := agg
    domain_adaptation :=
      if supervised then some ⟨n_hidden, 2, false, true⟩ else none
    gsLayers := encoderGSLayers in_feats n_hidden n_layers agg
    fcLayers := encoderFC n_hidden n_layers
    cfHead := if supervised then some ⟨n_hidden, n_classes, false, false⟩ else none }

/-- The parts of a constructed `SAGELightning` the claims refer to. -/
structure LightningModel where
  module : SAGEModule
  supervised : Bool
  kappa : ℕ
  hasKL : Bool

/-- `SAGELightning.__init__` (models.py lines 31-64): builds the `SAGE` module from its
arguments; the `self.kl = th.nn.KLDivLoss(...)` member exists only when `supervised`. -/
def sageLightningInit (in_feats n_hidden n_classes n_layers : ℕ) (supervised : Bool)
    (kappa : ℕ) (agg : Aggregator) : LightningModel :=
  { module := sageInit in_feats n_hidden n_classes n_layers supervised agg
    supervised := supervised
    kappa := kappa
    hasKL := supervised }

/-! ### `SAGE.forward` (models.py lines 219-237) -/

/-- One graph convolution layer as a function on features: a `GATConv` returns one output
matrix per attention head, a `SAGEConv` returns a single matrix. `B` is the type of DGL
message-flow blocks. -/
inductive LayerFn (B : Type) where
  | gat (f : B → Matrix → List Matrix)
  | sageconv (f : B → Matrix → Matrix)

/-- Elementwise sum of two matrices. -/
def matAdd (A B : Matrix) : Matrix := List.zipWith (List.zipWith (fun a b => a + b)) A B

/-- Scale a matrix elementwise. -/
def matScale (c : ℝ) (A : Matrix) : Matrix := A.map (fun r => r.map (fun v => c * v))

/-- Mean over the head dimension, `tensor.mean(1)`. -/
def meanMatrices : List Matrix → Matrix
  | [] => []
  | m :: ms => matScale (1 / ((m :: ms).length : ℝ)) (ms.foldl matAdd m)

/-- One step of `SAGE.forward`: `h = layer(block, h).mean(1)` for the attentional
aggregator, `h = layer(block, h)` otherwise. -/
def applyLayer {B : Type} : LayerFn B → B → Matrix → Matrix
  | LayerFn.gat f, bl, h => meanMatrices (f bl h)
  | LayerFn.sageconv f, bl, h => f bl h

/-- `x.map (log (x + 1))`: the input transform `h = th.log(x + 1)` of `SAGE.forward`. -/
def logTransform (x : Matrix) : Matrix :=
  x.map (fun row => row.map (fun v => Real.log (v + 1)))

/-- `SAGE.forward(blocks, x)`: starting from `log(x + 1)`, fold each layer over its
message-flow block in order (`zip(encoder_dict['GS'], blocks)`). -/
def sageForward {B : Type} (layers : List (LayerFn B)) (blocks : List B) (x : Matrix) :
    Matrix :=
  (List.zip layers blocks).foldl (fun h lb => applyLayer lb.1 lb.2 h) (logTransform x)

/-! ### `Window.pass_multi_data` (primitiveVis_open3dv2.py lines 91-123)

Gene labels have type `G`, dataset filenames type `F`. Colors are omitted: the claim is
about point coordinates and filename tags only. -/

/-- A displayed point. -/
abbrev Point3 := ℝ × ℝ × ℝ

/-- Coordinates plus per-point filename tags accumulated for one gene. -/
abbrev PointCloud (F : Type) := List Point3 × List F

/-- The data of one member dataset that `pass_multi_data` reads: the filename, the three
offsets, and the output of `xy_groupby_gene_generator()` (per gene, the x/y point list). -/
structure VisDataset (G F : Type) where
  filename : F
  x_offset : ℝ
  y_offset : ℝ
  z_offset : ℝ
  genePoints : List (G × List (ℝ × ℝ))

/-- `np.vstack([x, y, np.zeros(...)]).T + offset`: each point is placed at
`(x + x_offset, y + y_offset, 0 + z_offset)`. -/
def transformCoords {G F : Type} (d : VisDataset G F) (pts : List (ℝ × ℝ)) : List Point3 :=
  pts.map (fun p => (p.1 + d.x_offset, p.2 + d.y_offset, 0 + d.z_offset))

/-- The per-gene contribution of one dataset: transformed coordinates and
`np.array([dataframe.filename] * coords.shape[0])`. -/
def entryOf {G F : Type} (d : VisDataset G F) (pts : List (ℝ × ℝ)) : PointCloud F :=
  (transformCoords d pts, List.replicate pts.length d.filename)

/-- Concatenation of two point clouds (`np.concatenate` on both components). -/
def pcAppend {F : Type} (p q : PointCloud F) : PointCloud F := (p.1 ++ q.1, p.2 ++ q.2)

/-- Concatenation of a list of point clouds, in order. -/
def pcConcat {F : Type} (l : List (PointCloud F)) : PointCloud F :=
  ((l.map Prod.fst).flatten, (l.map Prod.snd).flatten)

/-- Coordinate/filename skeleton of the `dic_coords` update of `pass_multi_data`: a
missing gene key is inserted at the end (python dict insertion order), an existing entry
is replaced by the concatenation of the old and the new point cloud. The faithful
embedding, including the color arrays and their error paths, is `passMultiGeneStep`
below; `projDic` relates the two. -/
def updateDic {G F : Type} [DecidableEq G] :
    List (G × PointCloud F) → G → PointCloud F → List (G × PointCloud F)
  | [], g, e => [(g, e)]
  | kv :: rest, g, e =>
    if kv.1 = g then (g, pcAppend kv.2 e) :: rest else kv :: updateDic rest g e

/-- Coordinate/filename skeleton of the inner `for gene, x, y in
dataframe.xy_groupby_gene_generator()` loop of `pass_multi_data`; the faithful loop with
the color handling is `passGenesE` below. -/
def skeletonDatasetGenes {G F : Type} [DecidableEq G] (d : VisDataset G F)
    (dic : List (G × PointCloud F)) : List (G × PointCloud F) :=
  d.genePoints.foldl (fun acc gp => updateDic acc gp.1 (entryOf d gp.2)) dic

/-- Coordinate/filename skeleton of `Window.pass_multi_data`, used as the specification
of the `dic_coords` content; the faithful embedding with the color state and its error
paths is `passMultiDataE` below, related to this skeleton on the auto-color path by
`passDatasetsE_ok`. -/
def skeletonMultiData {G F : Type} [DecidableEq G] (ds : List (VisDataset G F)) :
    List (G × PointCloud F) :=
  ds.foldl (fun acc d => skeletonDatasetGenes d acc) []

/-- Association-list lookup (python dict access). -/
def lookupAssoc {α β : Type} [DecidableEq α] : List (α × β) → α → Option β
  | [], _ => none
  | kv :: rest, a => if kv.1 = a then some kv.2 else lookupAssoc rest a

/-- Whether a dataset's generator yields gene `g` at all. -/
def occursIn {G F : Type} [DecidableEq G] (d : VisDataset G F) (g : G) : Bool :=
  d.genePoints.any (fun gp => gp.1 = g)

/-- Specification-style contribution of one dataset to gene `g`. -/
def geneContrib {G F : Type} [DecidableEq G] (d : VisDataset G F) (g : G) : PointCloud F :=
  pcConcat ((d.genePoints.filter (fun gp => gp.1 = g)).map (fun gp => entryOf d gp.2))

/-- Specification-style result for gene `g`: the concatenation, over all member datasets
in order, of that gene's transformed points and filename tags. -/
def geneConcat {G F : Type} [DecidableEq G] (ds : List (VisDataset G F)) (g : G) :
    PointCloud F :=
  pcConcat ((ds.map (fun d =>
    (d.genePoints.filter (fun gp => gp.1 = g)).map (fun gp => entryOf d gp.2))).flatten)

/-- How a batch of updates changes the dictionary entry of one gene: an existing entry is
extended by the batch contribution, a missing entry is created exactly when the batch
mentions the gene. Used to state the fold lemmas for `pass_multi_data`. -/
def optExtend {F : Type} (o : Option (PointCloud F)) (present : Bool) (c : PointCloud F) :
    Option (PointCloud F) :=
  match o with
  | some p => some (pcAppend p c)
  | none => if present then some c else none

/-! ### `Window.pass_multi_data` with the color handling (lines 91-123) -/

/-- Python exceptions raised by the modelled code paths. `keyError` is the failed
`self.color_dic[gene]` access, `attributeError` the read of the never-assigned attribute
`self.name`, `unitException` / `areaException` the two `raise Exception(...)` statements of
`check_unit`, `indexError` a failed indexing (`list[0]` on an empty list, or `col[:,0,:]`
on a rank-2 array), and `valueError` a failed `np.concatenate` of arrays of different
rank. -/
inductive PyError (G : Type) where
  | keyError (key : G)
  | attributeError
  | unitException
  | areaException
  | indexError
  | valueError

/-- A value stored in `Window.color_dic` as far as `pass_multi_data`'s control flow is
concerned: `flat` is a plain `(R, G, B)` tuple (the input format documented in `Window`'s
docstring), `nested` is the one-element list `[(r, g, b)]` that the auto-color branch
itself stores on line 107. The numeric RGB content influences neither any exception nor
the coordinates and filename tags the claim is about, so only the nesting is tracked. -/
inductive ColorVal where
  | flat
  | nested
deriving DecidableEq

/-- Shape of the per-gene numpy color array `col` built on lines 104-108: `dim2 n` is
shape `(n, 3)` (from a `flat` dictionary value, or from the auto branch), `dim3 n` is
shape `(n, 1, 3)` (from a `nested` dictionary value). On line 116, `col[:,0,:]` turns
`dim3 n` into `dim2 n` and raises `IndexError` on a `dim2 n` array; on line 120,
`np.concatenate` raises `ValueError` when the stored and the new array differ in rank. -/
inductive ColArr where
  | dim2 (n : ℕ)
  | dim3 (n : ℕ)
deriving DecidableEq

/-- One `dic_coords` entry: coordinates, color array, filename tags. -/
abbrev GEntry (F : Type) := List Point3 × ColArr × List F

/-- The mutable state of `pass_multi_data`: `self.color_dic` and `dic_coords`. -/
abbrev VisState (G F : Type) := List (G × ColorVal) × List (G × GEntry F)

/-- Python dict assignment `dic[k] = v`: replace the value at an existing key, insert at
the end otherwise. -/
def setAssoc {α β : Type} [DecidableEq α] : List (α × β) → α → β → List (α × β)
  | [], a, b => [(a, b)]
  | kv :: rest, a, b => if kv.1 = a then (a, b) :: rest else kv :: setAssoc rest a b

/-- The body of the inner gene loop of `pass_multi_data` (lines 98-121), including the
color handling: build the transformed coordinates and filename tags, read or create the
color entry (a `flat` value gives a `(n, 3)` array, a `nested` value a `(n, 1, 3)` array,
and a missing gene stores a `nested` auto color and gives `(n, 3)`), then either insert
the first `dic_coords` entry for the gene or concatenate onto the existing one, where
line 116 (`col = col[:,0,:]`) raises `IndexError` on a rank-2 `col` and line 120
(`np.concatenate([col1, col])`) raises `ValueError` when the stored color array is
rank 3. Gene labels and `str(gene)` are identified in the type `G` (the source mixes the
two as dictionary keys, which coincide for string gene labels). -/
def passMultiGeneStep {G F : Type} [DecidableEq G] (d : VisDataset G F)
    (st : VisState G F) (gp : G × List (ℝ × ℝ)) :
    Except (PyError G) (VisState G F) :=
  let coords := transformCoords d gp.2
  let names : List F := List.replicate gp.2.length d.filename
  let cdcol : List (G × ColorVal) × ColArr :=
    match lookupAssoc st.1 gp.1 with
    | some ColorVal.flat => (st.1, ColArr.dim2 gp.2.length)
    | some ColorVal.nested => (st.1, ColArr.dim3 gp.2.length)
    | none => (setAssoc st.1 gp.1 ColorVal.nested, ColArr.dim2 gp.2.length)
  match lookupAssoc st.2 gp.1 with
  | none => Except.ok (cdcol.1, setAssoc st.2 gp.1 (coords, cdcol.2, names))
  | some e =>
    match cdcol.2 with
    | ColArr.dim2 _ => Except.error PyError.indexError
    | ColArr.dim3 m =>
      match e.2.1 with
      | ColArr.dim3 _ => Except.error PyError.valueError
      | ColArr.dim2 m1 =>
        Except.ok (cdcol.1,
          setAssoc st.2 gp.1 (e.1 ++ coords, ColArr.dim2 (m1 + m), e.2.2 ++ names))

/-- The inner gene loop of `pass_multi_data` over one dataset; the first exception
propagates. -/
def passGenesE {G F : Type} [DecidableEq G] (d : VisDataset G F) :
    VisState G F → List (G × List (ℝ × ℝ)) → Except (PyError G) (VisState G F)
  | st, [] => Except.ok st
  | st, gp :: gps =>
    match passMultiGeneStep d st gp with
    | Except.error e => Except.error e
    | Except.ok st' => passGenesE d st' gps

/-- The outer dataset loop of `pass_multi_data`. -/
def passDatasetsE {G F : Type} [DecidableEq G] :
    VisState G F → List (VisDataset G F) → Except (PyError G) (VisState G F)
  | st, [] => Except.ok st
  | st, d :: ds =>
    match passGenesE d st d.genePoints with
    | Except.error e => Except.error e
    | Except.ok st' => passDatasetsE st' ds

/-- `Window.pass_multi_data` (lines 91-123), with the color dictionary supplied to
`Window.__init__` as `cd0`: fold all member datasets, in `MultiDataset` iteration order,
into the state `(color_dic, dic_coords)`, starting from an empty `dic_coords`. -/
def passMultiDataE {G F : Type} [DecidableEq G] (cd0 : List (G × ColorVal))
    (ds : List (VisDataset G F)) : Except (PyError G) (VisState G F) :=
  passDatasetsE (cd0, []) ds

/-- Forget the color component of every `dic_coords` entry, keeping the coordinates and
filename tags — the data the claim is about. -/
def projDic {G F : Type} : List (G × GEntry F) → List (G × PointCloud F) :=
  List.map (fun kv => (kv.1, (kv.2.1, kv.2.2.2)))

/-- Invariant of the auto-color run (initially empty `color_dic`): the color dictionary
and `dic_coords` hold exactly the genes seen so far, every stored color is the `nested`
auto value, and every stored color array has rank 2 — the shapes under which the color
code of `pass_multi_data` cannot raise. -/
def goodState {G F : Type} [DecidableEq G] (st : VisState G F) : Prop :=
  (∀ g : G, (lookupAssoc st.1 g).isSome = (lookupAssoc st.2 g).isSome)
  ∧ (∀ (g : G) (cv : ColorVal), lookupAssoc st.1 g = some cv → cv = ColorVal.nested)
  ∧ (∀ (g : G) (e : GEntry F), lookupAssoc st.2 g = some e → ∃ m, e.2.1 = ColArr.dim2 m)

/-! ### `Window.pass_data` for a single `Dataset`
(primitiveVis_open3dv2.py lines 73-88) and `MultiDataset.check_unit` -/

/-- `Window.__init__` assigns `dataset`, `offset`, `color_dic`, `dic_pointclouds`, ... but
never `self.name`: attribute lookup of `name` on a `Window` finds nothing. -/
def windowName : Option Unit := none

/-- One iteration of the `pass_data` loop body for gene `g`. The coordinates are built
first (lines 78-79); `if self.color_dic[gene]:` (line 81) raises `KeyError` when the gene
is missing from the color dictionary; on either branch of that test the loop then
evaluates `np.array([self.name] * coords.shape[0])` (line 87) and `self.name` raises
`AttributeError`. Colors are modelled as tuples, whose truthiness never raises. -/
def passDataGene {G : Type} [DecidableEq G] (cd : List (G × List ℕ))
    (xo yo zo : ℝ) (g : G) (pts : List (ℝ × ℝ)) :
    Except (PyError G) (List Point3 × List Unit) :=
  let coords := pts.map (fun p => (p.1 + xo, p.2 + yo, 0 + zo))
  match lookupAssoc cd g with
  | none => Except.error (PyError.keyError g)
  | some _ =>
    match windowName with
    | none => Except.error PyError.attributeError
    | some nm => Except.ok (coords, List.replicate pts.length nm)

/-- `Window.pass_data`: iterate the generator output; the first raised exception
propagates. -/
def passData {G : Type} [DecidableEq G] (cd : List (G × List ℕ)) (xo yo zo : ℝ) :
    List (G × List (ℝ × ℝ)) → Except (PyError G) (List (G × (List Point3 × List Unit)))
  | [] => Except.ok []
  | gp :: rest =>
    match passDataGene cd xo yo zo gp.1 gp.2 with
    | Except.error e => Except.error e
    | Except.ok entry =>
      match passData cd xo yo zo rest with
      | Except.error e => Except.error e
      | Except.ok r => Except.ok ((gp.1, entry) :: r)

/-- `Window.__init__` on a single `Dataset` (the branch reached by
`Dataset.visualize`): `self.dic_pointclouds = {gene_label: self.pass_data()}` runs before
the `Visualizer` is created and any geometry is shown, so an exception in `pass_data`
propagates out of the constructor first. -/
def windowInitSingleDataset {G : Type} [DecidableEq G] (cd : List (G × List ℕ))
    (xo yo zo : ℝ) (groups : List (G × List (ℝ × ℝ))) :
    Except (PyError G) (List (G × (List Point3 × List Unit))) :=
  passData cd xo yo zo groups

/-! ### `MultiDataset.__next__` (dataset.py lines 362-373) -/

/-- The iterator state of a `MultiDataset`: the member list and `self.index`. -/
structure IterState (α : Type) where
  datasets : List α
  index : ℕ
deriving DecidableEq

/-- `MultiDataset.__next__`: when `self.index >= len(self.datasets)` the index is reset to
0 and `StopIteration` is raised (modelled as `none`); otherwise the dataset at the current
index is returned and the index incremented. -/
def nextD {α : Type} (s : IterState α) : Option α × IterState α :=
  if h : s.index < s.datasets.length then
    (some (s.datasets.get ⟨s.index, h⟩), ⟨s.datasets, s.index + 1⟩)
  else
    (none, ⟨s.datasets, 0⟩)

/-- Results and final state of `n` consecutive `__next__` calls. -/
def runN {α : Type} : IterState α → ℕ → List (Option α) × IterState α
  | s, 0 => ([], s)
  | s, n + 1 =>
    let r := nextD s
    let rest := runN r.2 n
    (r.1 :: rest.1, rest.2)

/-! ### `MultiDataset.check_unit` (dataset.py lines 472-490) -/

/-- The unit data of one member dataset (`pint` quantities, modelled as rationals). -/
structure UDataset where
  unit_scale : ℚ
  area_scale : ℚ
deriving DecidableEq

/-- `np.all` on a materialized list of booleans (`np.all([])` is `True`). -/
def npAllBoolList (l : List Bool) : Bool := l.all id

/-- Modelled from the source quirk on dataset.py line 487: `np.all` applied to a generator
expression (not a list) treats the generator object as a single truthy scalar and returns
`True`, so the area check never fails. -/
def npAllOnGenerator : Bool := true

/-- `MultiDataset.check_unit`: on success returns `(self.unit_scale, self.unit_area)` and
the member datasets, which it does not modify. The first check materializes the list
comprehension `[i == all_unit[0] for i in all_unit]` (which never evaluates `all_unit[0]`
when the list is empty); the second passes a generator to `np.all` and can never fail. -/
def check_unit (ds : List UDataset) : Except (PyError Unit) (ℚ × ℚ × List UDataset) :=
  let all_unit := ds.map (fun d => d.unit_scale)
  let all_area := ds.map (fun d => d.area_scale)
  let unitChecks : List Bool :=
    match all_unit with
    | [] => []
    | u0 :: _ => all_unit.map (fun i => i == u0)
  if npAllBoolList unitChecks = false then Except.error PyError.unitException
  else if npAllOnGenerator = false then Except.error PyError.areaException
  else
    match all_unit, all_area with
    | u0 :: _, a0 :: _ => Except.ok (u0, a0, ds)
    | _, _ => Except.error PyError.indexError

end

/-! ### Lemmas about the contrastive loss -/

theorem logsigmoid_eq (x : ℝ) : logsigmoid x = -Real.log (1 + Real.exp (-x)) := by
  unfold logsigmoid sigmoid
  rw [one_div, Real.log_inv]

theorem neg_logsigmoid_lt {x y : ℝ} (h : x < y) : -logsigmoid y < -logsigmoid x := by
  rw [logsigmoid_eq, logsigmoid_eq, neg_neg, neg_neg]
  have hx : Real.exp (-y) < Real.exp (-x) := Real.exp_lt_exp.mpr (neg_lt_neg h)
  have hpos : (0 : ℝ) < 1 + Real.exp (-y) := by positivity
  exact Real.log_lt_log hpos (by linarith)

theorem posLossScores_update (pre post : List ℝ) (t : ℝ) :
    posLossScores (pre ++ t :: post)
      = ((pre.map (fun u => -logsigmoid u)).sum + -logsigmoid t
          + (post.map (fun u => -logsigmoid u)).sum)
        / ((pre.length + post.length + 1 : ℕ) : ℝ) := by
  unfold posLossScores meanList
  rw [List.map_append, List.map_cons, List.sum_append, List.sum_cons,
    List.length_append, List.length_map, List.length_cons, List.length_map]
  push_cast
  ring

theorem negLossScores_update (pre post : List ℝ) (t : ℝ) :
    negLossScores (pre ++ t :: post)
      = ((pre.map (fun u => -logsigmoid (-u))).sum + -logsigmoid (-t)
          + (post.map (fun u => -logsigmoid (-u))).sum)
        / ((pre.length + post.length + 1 : ℕ) : ℝ) := by
  unfold negLossScores meanList
  rw [List.map_append, List.map_cons, List.sum_append, List.sum_cons,
    List.length_append, List.length_map, List.length_cons, List.length_map]
  push_cast
  ring

theorem posLossScores_strictAnti (pre post : List ℝ) {s s' : ℝ} (h : s < s') :
    posLossScores (pre ++ s' :: post) < posLossScores (pre ++ s :: post) := by
  rw [posLossScores_update, posLossScores_update]
  have hc : (0 : ℝ) < ((pre.length + post.length + 1 : ℕ) : ℝ) := by positivity
  have hs := neg_logsigmoid_lt h
  apply div_lt_div_of_pos_right ?_ hc
  linarith

theorem negLossScores_strictMono (pre post : List ℝ) {s s' : ℝ} (h : s < s') :
    negLossScores (pre ++ s :: post) < negLossScores (pre ++ s' :: post) := by
  rw [negLossScores_update, negLossScores_update]
  have hc : (0 : ℝ) < ((pre.length + post.length + 1 : ℕ) : ℝ) := by positivity
  have hs := neg_logsigmoid_lt (neg_lt_neg h)
  apply div_lt_div_of_pos_right ?_ hc
  linarith

/-- C1: `CrossEntropyLoss.forward` applied to node embeddings with a positive and a
negative graph returns `(loss, pos_loss, neg_loss)` with `loss = pos_loss + neg_loss`,
`pos_loss` the mean over positive edges of `-logsigmoid(dot(u, v))` and `neg_loss` the mean
over negative edges of `-logsigmoid(-dot(u, v))`; for fixed embeddings the total loss is
strictly decreasing in each positive-edge dot product and strictly increasing in each
negative-edge dot product. -/
theorem C1_cross_entropy_loss (emb : ℕ → List ℝ) (posEdges negEdges : List (ℕ × ℕ))
    (P N pre post : List ℝ) (s s' : ℝ) (h : s < s') :
    ceLossForward emb posEdges negEdges
      = (posLossScores (edgeScores emb posEdges) + negLossScores (edgeScores emb negEdges),
         posLossScores (edgeScores emb posEdges),
         negLossScores (edgeScores emb negEdges))
    ∧ posLossScores (pre ++ s' :: post) + negLossScores N
        < posLossScores (pre ++ s :: post) + negLossScores N
    ∧ posLossScores P + negLossScores (pre ++ s :: post)
        < posLossScores P + negLossScores (pre ++ s' :: post) := by
  refine ⟨rfl, ?_, ?_⟩
  · exact add_lt_add_right (posLossScores_strictAnti pre post h) _
  · exact add_lt_add_left (negLossScores_strictMono pre post h) _

theorem C1_cross_entropy_loss_witness :
    posLossScores ([] ++ (1 : ℝ) :: []) + negLossScores []
      < posLossScores ([] ++ (0 : ℝ) :: []) + negLossScores [] :=
  (C1_cross_entropy_loss (fun _ => []) [] [] [] [] [] [] 0 1 one_pos).2.1

/-! ### Lemmas about `training_step` and the model constructors -/

/-- C2: a `SAGELightning` built with `supervised=True` carries a `SAGE` module whose
`domain_adaptation` classifier has exactly 2 output labels and `reverse_gradients=True`,
and its `training_step` adds the discriminator loss over the pair
`[batch_pred_unlab, batch_pred_lab]` to the training loss; built with `supervised=False`
no `domain_adaptation` module exists and `training_step` returns the unsupervised
contrastive loss alone. -/
theorem C2_domain_adaptation (in_feats n_hidden n_classes n_layers kappa0 : ℕ)
    (agg : Aggregator) (CF DA : List ℝ → List ℝ) (kl : Matrix → Matrix → ℝ)
    (b : SupBatch) (k : ℕ) :
    (sageLightningInit in_feats n_hidden n_classes n_layers true kappa0 agg).module.domain_adaptation
        = some ⟨n_hidden, 2, false, true⟩
    ∧ (sageLightningInit in_feats n_hidden n_classes n_layers false kappa0 agg).module.domain_adaptation
        = none
    ∧ (trainingStepLoss true CF DA kl b k).1
        = boneFightBranch CF b + unsupBranch b + classifierBranch CF b
            + supContrastiveBranch b + lossDiscriminator DA [b.predU, b.predL]
    ∧ (trainingStepLoss false CF DA kl b k).1 = unsupBranch b :=
  ⟨rfl, rfl, rfl, rfl⟩

theorem kappaFactor_zero : kappaFactor 0 = 0 := by
  unfold kappaFactor
  norm_num

theorem kappaFactor_strictMono {k k' : ℕ} (h : k < k') : kappaFactor k < kappaFactor k' := by
  unfold kappaFactor
  have h10 : (1 : ℝ) < 10 := by norm_num
  have hkk : (k : ℝ) < (k' : ℝ) := Nat.cast_lt.mpr h
  have hexp : -((k' : ℝ) / 2000) < -((k : ℝ) / 2000) := by
    apply neg_lt_neg
    linarith
  have hr : (10 : ℝ) ^ (-((k' : ℝ) / 2000)) < (10 : ℝ) ^ (-((k : ℝ) / 2000)) :=
    (Real.rpow_lt_rpow_left_iff h10).mpr hexp
  have hp : (0 : ℝ) < (10 : ℝ) ^ (-((k' : ℝ) / 2000)) :=
    Real.rpow_pos_of_pos (by norm_num) _
  have h2 : 2 / (1 + (10 : ℝ) ^ (-((k : ℝ) / 2000)))
      < 2 / (1 + (10 : ℝ) ^ (-((k' : ℝ) / 2000))) := by
    apply div_lt_div_of_pos_left (by norm_num) (by linarith) (by linarith)
  linarith

theorem kappaFactor_lt_one (k : ℕ) : kappaFactor k < 1 := by
  unfold kappaFactor
  have hp : (0 : ℝ) < (10 : ℝ) ^ (-((k : ℝ) / 2000)) :=
    Real.rpow_pos_of_pos (by norm_num) _
  have h2 : 2 / (1 + (10 : ℝ) ^ (-((k : ℝ) / 2000))) < 2 := by
    rw [div_lt_iff₀ (by linarith)]
    nlinarith
  linarith

/-- C3 (code bug): `training_step` computes the annealing factor — which is 0 at iteration
0, strictly increasing, and bounded by 1 — and increments the iteration counter, but the
returned loss is the unweighted five-branch sum, independent of the counter: the weighted
combination (models.py line 138) is commented out, contradicting the comment on lines
132-134 that announces the annealed weighting. -/
theorem C3_annealing_unused (CF DA : List ℝ → List ℝ) (kl : Matrix → Matrix → ℝ)
    (b : SupBatch) (k k' : ℕ) (h : k < k') :
    kappaFactor 0 = 0
    ∧ kappaFactor k < kappaFactor k'
    ∧ kappaFactor k' < 1
    ∧ (trainingStepLoss true CF DA kl b k).1 = (trainingStepLoss true CF DA kl b k').1
    ∧ (trainingStepLoss true CF DA kl b k).2 = k + 1 :=
  ⟨kappaFactor_zero, kappaFactor_strictMono h, kappaFactor_lt_one k', rfl, rfl⟩

theorem C3_annealing_unused_witness :
    kappaFactor 0 = 0 ∧ kappaFactor 0 < kappaFactor 1 :=
  ⟨(C3_annealing_unused (fun v => v) (fun v => v) (fun _ _ => 0)
      ⟨[], [], [], [], [], [], [], [], []⟩ 0 1 Nat.one_pos).1,
   (C3_annealing_unused (fun v => v) (fun v => v) (fun _ _ => 0)
      ⟨[], [], [], [], [], [], [], [], []⟩ 0 1 Nat.one_pos).2.1⟩

/-- C4 counterexample: no configuration adds a variational/KL penalty to the training
loss. In the supervised configuration — the only one that even constructs a KL-divergence
module — replacing that module by one that returns 1000 on every input leaves the training
loss unchanged, and likewise in the unsupervised configuration. -/
theorem C4_no_variational_counterexample :
    trainingStepLoss true (fun v => v) (fun v => v) (fun _ _ => (0 : ℝ))
        ⟨[], [], [], [], [], [], [], [], []⟩ 0
      = trainingStepLoss true (fun v => v) (fun v => v) (fun _ _ => (1000 : ℝ))
        ⟨[], [], [], [], [], [], [], [], []⟩ 0
    ∧ trainingStepLoss false (fun v => v) (fun v => v) (fun _ _ => (0 : ℝ))
        ⟨[], [], [], [], [], [], [], [], []⟩ 0
      = trainingStepLoss false (fun v => v) (fun v => v) (fun _ _ => (1000 : ℝ))
        ⟨[], [], [], [], [], [], [], [], []⟩ 0 :=
  ⟨rfl, rfl⟩

/-- C4 amended: the GNN training core provides no variational latent regularization in any
configuration: the training loss is independent of the `KLDivLoss` member, equals the plain
non-variational branch sum for both values of `supervised`, and the latent head of the
encoder is a deterministic `Linear(n_hidden, n_hidden)` layer. -/
theorem C4_no_variational (s : Bool) (CF DA : List ℝ → List ℝ)
    (kl kl' : Matrix → Matrix → ℝ) (b : SupBatch) (k n_hidden n_layers : ℕ) :
    trainingStepLoss s CF DA kl b k = trainingStepLoss s CF DA kl' b k
    ∧ (trainingStepLoss s CF DA kl b k).1
        = (if s then
            boneFightBranch CF b + unsupBranch b + classifierBranch CF b
              + supContrastiveBranch b + domainBranch DA b
           else unsupBranch b)
    ∧ (encoderFC n_hidden n_layers).getLast?
        = some (FCLayer.linearLatent n_hidden n_hidden) := by
  refine ⟨rfl, ?_, ?_⟩
  · cases s <;> rfl
  · unfold encoderFC
    rw [List.getLast?_append_cons]
    rfl

/-- C5: in supervised mode the value returned by `training_step` is the sum of exactly
five loss branches, in code order: bone-fight regularization, unsupervised contrastive
loss, label-classification cross-entropy, supervised contrastive loss, and the
domain-adaptation discriminator loss. -/
theorem C5_five_branches (CF DA : List ℝ → List ℝ) (kl : Matrix → Matrix → ℝ)
    (b : SupBatch) (k : ℕ) :
    (trainingStepLoss true CF DA kl b k).1
      = boneFightBranch CF b + unsupBranch b + classifierBranch CF b
          + supContrastiveBranch b + domainBranch DA b :=
  rfl

/-! ### Lemmas about `Encoder.__init__` and `SAGE.forward` -/

/-- C6: for `n_layers >= 1` the encoder builds exactly `n_layers` convolution layers —
`GATConv` with 4 attention heads and output width `n_hidden` when the aggregator is
`'attentional'`, `SAGEConv` with output width `n_hidden` otherwise — and `SAGE.forward`
starts from `log(x + 1)`, applies each layer to its corresponding message-flow block in
order, and averages an attentional layer's output over its heads, so the final embedding
has `n_hidden` features per output node. -/
theorem C6_encoder_layers (in_feats n_hidden n_layers : ℕ) (agg : Aggregator)
    {B : Type} (layers : List (LayerFn B)) (blocks : List B) (l : LayerFn B) (bl : B)
    (x : Matrix) (f : B → Matrix → List Matrix)
    (h1 : 1 ≤ n_layers) (h2 : layers.length = blocks.length) :
    (encoderGSLayers in_feats n_hidden n_layers agg).length = n_layers
    ∧ (agg = Aggregator.attentional →
        ∀ c ∈ encoderGSLayers in_feats n_hidden n_layers agg,
          ∃ i d, c = ConvLayer.gat i n_hidden 4 d)
    ∧ (agg ≠ Aggregator.attentional →
        ∀ c ∈ encoderGSLayers in_feats n_hidden n_layers agg,
          ∃ i d, c = ConvLayer.sageConv i n_hidden agg d)
    ∧ sageForward ([] : List (LayerFn B)) blocks x = logTransform x
    ∧ sageForward (layers ++ [l]) (blocks ++ [bl]) x
        = applyLayer l bl (sageForward layers blocks x)
    ∧ applyLayer (LayerFn.gat f) bl x = meanMatrices (f bl x) := by
  refine ⟨?_, ?_, ?_, ?_, ?_, rfl⟩
  · simp [encoderGSLayers]
    omega
  · intro ha c hc
    subst ha
    simp only [encoderGSLayers, List.mem_append, List.mem_map, List.mem_range,
      List.mem_singleton] at hc
    rcases hc with ⟨i, _, rfl⟩ | rfl
    · exact ⟨_, _, rfl⟩
    · exact ⟨_, _, rfl⟩
  · intro ha c hc
    simp only [encoderGSLayers, List.mem_append, List.mem_map, List.mem_range,
      List.mem_singleton] at hc
    cases agg with
    | attentional => exact absurd rfl ha
    | meanAgg =>
      rcases hc with ⟨i, _, rfl⟩ | rfl
      · exact ⟨_, _, rfl⟩
      · exact ⟨_, _, rfl⟩
    | poolAgg =>
      rcases hc with ⟨i, _, rfl⟩ | rfl
      · exact ⟨_, _, rfl⟩
      · exact ⟨_, _, rfl⟩
    | gcnAgg =>
      rcases hc with ⟨i, _, rfl⟩ | rfl
      · exact ⟨_, _, rfl⟩
      · exact ⟨_, _, rfl⟩
  · simp [sageForward]
  · unfold sageForward
    rw [List.zip_append h2, List.foldl_append]
    rfl

theorem C6_encoder_layers_witness :
    (encoderGSLayers 3 7 2 Aggregator.attentional).length = 2 :=
  (C6_encoder_layers 3 7 2 Aggregator.attentional
    ([] : List (LayerFn Unit)) [] (LayerFn.sageconv (fun _ m => m)) () []
    (fun _ _ => []) (by decide) rfl).1

/-! ### Lemmas about `Window.pass_multi_data` -/

theorem pcAppend_empty_right {F : Type} (p : PointCloud F) : pcAppend p ([], []) = p := by
  simp [pcAppend]

theorem pcAppend_assoc {F : Type} (p q r : PointCloud F) :
    pcAppend (pcAppend p q) r = pcAppend p (pcAppend q r) := by
  simp [pcAppend]

theorem pcConcat_nil {F : Type} : pcConcat ([] : List (PointCloud F)) = ([], []) := rfl

theorem pcConcat_cons {F : Type} (x : PointCloud F) (l : List (PointCloud F)) :
    pcConcat (x :: l) = pcAppend x (pcConcat l) := by
  simp [pcConcat, pcAppend]

theorem pcConcat_append {F : Type} (l1 l2 : List (PointCloud F)) :
    pcConcat (l1 ++ l2) = pcAppend (pcConcat l1) (pcConcat l2) := by
  simp [pcConcat, pcAppend]

theorem geneConcat_nil {G F : Type} [DecidableEq G] (g : G) :
    geneConcat ([] : List (VisDataset G F)) g = ([], []) := rfl

theorem geneConcat_cons {G F : Type} [DecidableEq G] (d : VisDataset G F)
    (ds : List (VisDataset G F)) (g : G) :
    geneConcat (d :: ds) g = pcAppend (geneContrib d g) (geneConcat ds g) := by
  unfold geneConcat geneContrib
  rw [List.map_cons, List.flatten_cons, pcConcat_append]

theorem geneContrib_of_not_occurs {G F : Type} [DecidableEq G] {d : VisDataset G F}
    {g : G} (h : occursIn d g = false) : geneContrib d g = ([], []) := by
  unfold geneContrib
  have hf : d.genePoints.filter (fun gp => gp.1 = g) = [] := by
    rw [List.filter_eq_nil_iff]
    intro gp hgp
    unfold occursIn at h
    rw [List.any_eq_false] at h
    exact h gp hgp
  rw [hf]
  rfl

theorem lookup_updateDic {G F : Type} [DecidableEq G] (dic : List (G × PointCloud F))
    (g' g : G) (e : PointCloud F) :
    lookupAssoc (updateDic dic g' e) g
      = if g' = g then
          (match lookupAssoc dic g' with
           | some p => some (pcAppend p e)
           | none => some e)
        else lookupAssoc dic g := by
  induction dic with
  | nil =>
    by_cases h : g' = g <;> simp [updateDic, lookupAssoc, h]
  | cons kv rest ih =>
    by_cases h1 : kv.1 = g'
    · by_cases h2 : g' = g
      · subst h2
        simp [updateDic, lookupAssoc, h1]
      · have h3 : kv.1 ≠ g := by rw [h1]; exact h2
        simp [updateDic, lookupAssoc, h1, h2, h3]
    · by_cases h2 : kv.1 = g
      · have h3 : g' ≠ g := fun hh => h1 (h2.trans hh.symm)
        simp [updateDic, lookupAssoc, h1, h2, h3, h3.symm]
      · simp [updateDic, lookupAssoc, h1, h2, ih]

theorem optExtend_optExtend {F : Type} (o : Option (PointCloud F)) (b1 b2 : Bool)
    (c1 c2 : PointCloud F) (hb : b1 = false → c1 = ([], [])) :
    optExtend (optExtend o b1 c1) b2 c2 = optExtend o (b1 || b2) (pcAppend c1 c2) := by
  cases o with
  | some p => simp [optExtend, pcAppend_assoc]
  | none =>
    cases b1 with
    | true => simp [optExtend]
    | false =>
      cases b2 with
      | true => simp [optExtend, hb rfl, pcAppend]
      | false => simp [optExtend]

theorem lookup_foldl_update {G F : Type} [DecidableEq G]
    (Fe : G × List (ℝ × ℝ) → PointCloud F) (g : G) :
    ∀ (gps : List (G × List (ℝ × ℝ))) (dic : List (G × PointCloud F)),
    lookupAssoc (gps.foldl (fun acc gp => updateDic acc gp.1 (Fe gp)) dic) g
      = optExtend (lookupAssoc dic g) (gps.any (fun gp => gp.1 = g))
          (pcConcat ((gps.filter (fun gp => gp.1 = g)).map Fe)) := by
  intro gps
  induction gps with
  | nil =>
    intro dic
    cases h : lookupAssoc dic g <;>
      simp [optExtend, h, pcConcat, pcAppend_empty_right]
  | cons gp gps ih =>
    intro dic
    rw [List.foldl_cons, ih, lookup_updateDic]
    by_cases hg : gp.1 = g
    · subst hg
      cases h : lookupAssoc dic gp.1 with
      | none =>
        simp [h, optExtend, List.any_cons, List.filter_cons, pcConcat_cons]
      | some p =>
        simp [h, optExtend, List.any_cons, List.filter_cons, pcConcat_cons, pcAppend_assoc]
    · simp [hg, List.any_cons, List.filter_cons]

theorem lookup_passMulti_fold {G F : Type} [DecidableEq G] (g : G) :
    ∀ (ds : List (VisDataset G F)) (dic : List (G × PointCloud F)),
    lookupAssoc (ds.foldl (fun acc d => skeletonDatasetGenes d acc) dic) g
      = optExtend (lookupAssoc dic g) (ds.any (fun d => occursIn d g)) (geneConcat ds g) := by
  intro ds
  induction ds with
  | nil =>
    intro dic
    cases h : lookupAssoc dic g <;>
      simp [optExtend, h, geneConcat_nil, pcAppend_empty_right]
  | cons d ds ih =>
    intro dic
    rw [List.foldl_cons, ih]
    have hpass : lookupAssoc (skeletonDatasetGenes d dic) g
        = optExtend (lookupAssoc dic g) (occursIn d g) (geneContrib d g) :=
      lookup_foldl_update (fun gp => entryOf d gp.2) g d.genePoints dic
    rw [hpass, optExtend_optExtend _ _ _ _ _ (fun hfalse => geneContrib_of_not_occurs hfalse),
      ← geneConcat_cons]
    simp [occursIn]

/-! ### Simulation of the color-aware `pass_multi_data` by the skeleton -/

theorem lookup_setAssoc {α β : Type} [DecidableEq α] (l : List (α × β)) (a x : α) (b : β) :
    lookupAssoc (setAssoc l a b) x = if a = x then some b else lookupAssoc l x := by
  induction l with
  | nil => by_cases h : a = x <;> simp [setAssoc, lookupAssoc, h]
  | cons kv rest ih =>
    by_cases h1 : kv.1 = a
    · by_cases h2 : a = x
      · subst h2
        simp [setAssoc, lookupAssoc, h1]
      · have h3 : kv.1 ≠ x := by rw [h1]; exact h2
        simp [setAssoc, lookupAssoc, h1, h2, h3]
    · by_cases h2 : kv.1 = x
      · have h3 : a ≠ x := fun hh => h1 (h2.trans hh.symm)
        simp [setAssoc, lookupAssoc, h1, h2, h3, h3.symm]
      · simp [setAssoc, lookupAssoc, h1, h2, ih]

theorem projDic_setAssoc_absent {G F : Type} [DecidableEq G]
    (dic : List (G × GEntry F)) (g : G) (he : lookupAssoc dic g = none)
    (coords : List Point3) (col : ColArr) (names : List F) :
    projDic (setAssoc dic g (coords, col, names))
      = updateDic (projDic dic) g (coords, names) := by
  induction dic with
  | nil => simp [projDic, setAssoc, updateDic]
  | cons kv rest ih =>
    by_cases hk : kv.1 = g
    · simp [lookupAssoc, hk] at he
    · have hrest : lookupAssoc rest g = none := by simpa [lookupAssoc, hk] using he
      simpa [projDic, setAssoc, updateDic, hk] using ih hrest

theorem projDic_setAssoc_present {G F : Type} [DecidableEq G]
    (dic : List (G × GEntry F)) (g : G) (e : GEntry F)
    (he : lookupAssoc dic g = some e) (coords : List Point3) (col : ColArr)
    (names : List F) :
    projDic (setAssoc dic g (e.1 ++ coords, col, e.2.2 ++ names))
      = updateDic (projDic dic) g (coords, names) := by
  induction dic with
  | nil => simp [lookupAssoc] at he
  | cons kv rest ih =>
    obtain ⟨k1, v1⟩ := kv
    by_cases hk : k1 = g
    · have hv : v1 = e := by simpa [lookupAssoc, hk] using he
      subst hv
      simp [projDic, setAssoc, updateDic, hk, pcAppend]
    · have hrest : lookupAssoc rest g = some e := by simpa [lookupAssoc, hk] using he
      simpa [projDic, setAssoc, updateDic, hk] using ih hrest

theorem goodState_nil {G F : Type} [DecidableEq G] :
    goodState (([] : List (G × ColorVal)), ([] : List (G × GEntry F))) := by
  refine ⟨fun g => rfl, ?_, ?_⟩
  · intro g cv h
    simp [lookupAssoc] at h
  · intro g e h
    simp [lookupAssoc] at h

theorem passMultiGeneStep_ok {G F : Type} [DecidableEq G] (d : VisDataset G F)
    (st : VisState G F) (gp : G × List (ℝ × ℝ)) (h : goodState st) :
    ∃ st', passMultiGeneStep d st gp = Except.ok st'
      ∧ goodState st'
      ∧ projDic st'.2 = updateDic (projDic st.2) gp.1 (entryOf d gp.2) := by
  obtain ⟨h1, h2, h3⟩ := h
  cases hcd : lookupAssoc st.1 gp.1 with
  | none =>
    have hdic : lookupAssoc st.2 gp.1 = none := by
      have hh := h1 gp.1
      rw [hcd] at hh
      cases hd2 : lookupAssoc st.2 gp.1
      · rfl
      · rw [hd2] at hh
        simp at hh
    refine ⟨(setAssoc st.1 gp.1 ColorVal.nested,
        setAssoc st.2 gp.1 (transformCoords d gp.2, ColArr.dim2 gp.2.length,
          List.replicate gp.2.length d.filename)), ?_, ⟨?_, ?_, ?_⟩, ?_⟩
    · simp [passMultiGeneStep, hcd, hdic]
    · intro g'
      rw [lookup_setAssoc, lookup_setAssoc]
      by_cases hg : gp.1 = g' <;> simp [hg, h1 g']
    · intro g' cv hcv
      rw [lookup_setAssoc] at hcv
      by_cases hg : gp.1 = g'
      · rw [if_pos hg] at hcv
        cases hcv
        rfl
      · rw [if_neg hg] at hcv
        exact h2 g' cv hcv
    · intro g' e' he'
      rw [lookup_setAssoc] at he'
      by_cases hg : gp.1 = g'
      · rw [if_pos hg] at he'
        cases he'
        exact ⟨gp.2.length, rfl⟩
      · rw [if_neg hg] at he'
        exact h3 g' e' he'
    · exact projDic_setAssoc_absent st.2 gp.1 hdic _ _ _
  | some cv =>
    have hcv := h2 gp.1 cv hcd
    subst hcv
    have hsome : (lookupAssoc st.2 gp.1).isSome = true := by
      rw [← h1 gp.1, hcd]
      rfl
    obtain ⟨e, he⟩ := Option.isSome_iff_exists.mp hsome
    obtain ⟨m1, hm1⟩ := h3 gp.1 e he
    refine ⟨(st.1, setAssoc st.2 gp.1 (e.1 ++ transformCoords d gp.2,
        ColArr.dim2 (m1 + gp.2.length), e.2.2 ++ List.replicate gp.2.length d.filename)),
        ?_, ⟨?_, ?_, ?_⟩, ?_⟩
    · simp [passMultiGeneStep, hcd, he, hm1]
    · intro g'
      rw [lookup_setAssoc]
      by_cases hg : gp.1 = g'
      · subst hg
        simp [hcd]
      · simp [hg, h1 g']
    · exact h2
    · intro g' e' he'
      rw [lookup_setAssoc] at he'
      by_cases hg : gp.1 = g'
      · rw [if_pos hg] at he'
        cases he'
        exact ⟨m1 + gp.2.length, rfl⟩
      · rw [if_neg hg] at he'
        exact h3 g' e' he'
    · exact projDic_setAssoc_present st.2 gp.1 e he _ _ _

theorem passGenesE_ok {G F : Type} [DecidableEq G] (d : VisDataset G F) :
    ∀ (gps : List (G × List (ℝ × ℝ))) (st : VisState G F), goodState st →
    ∃ st', passGenesE d st gps = Except.ok st'
      ∧ goodState st'
      ∧ projDic st'.2
          = gps.foldl (fun acc gp => updateDic acc gp.1 (entryOf d gp.2)) (projDic st.2) := by
  intro gps
  induction gps with
  | nil =>
    intro st h
    exact ⟨st, rfl, h, rfl⟩
  | cons gp gps ih =>
    intro st h
    obtain ⟨st1, hstep, hg1, hp1⟩ := passMultiGeneStep_ok d st gp h
    obtain ⟨st', hrun, hg', hp'⟩ := ih st1 hg1
    refine ⟨st', ?_, hg', ?_⟩
    · simp [passGenesE, hstep, hrun]
    · rw [List.foldl_cons, ← hp1]
      exact hp'

theorem passDatasetsE_ok {G F : Type} [DecidableEq G] :
    ∀ (ds : List (VisDataset G F)) (st : VisState G F), goodState st →
    ∃ st', passDatasetsE st ds = Except.ok st'
      ∧ goodState st'
      ∧ projDic st'.2 = ds.foldl (fun acc d => skeletonDatasetGenes d acc) (projDic st.2) := by
  intro ds
  induction ds with
  | nil =>
    intro st h
    exact ⟨st, rfl, h, rfl⟩
  | cons d ds ih =>
    intro st h
    obtain ⟨st1, hrun1, hg1, hp1⟩ := passGenesE_ok d d.genePoints st h
    obtain ⟨st', hrun, hg', hp'⟩ := ih st1 hg1
    refine ⟨st', ?_, hg', ?_⟩
    · simp [passDatasetsE, hrun1, hrun]
    · rw [List.foldl_cons]
      have hskel : skeletonDatasetGenes d (projDic st.2) = projDic st1.2 := hp1.symm
      rw [hskel]
      exact hp'

/-- C7 (amended): with an initially empty color dictionary — the auto-color path, the
only shapes under which the color code of `pass_multi_data` cannot raise —
`pass_multi_data` succeeds and builds, for every gene, the concatenation over all member
datasets (in iteration order) of that gene's points, each point of dataset `d` placed at
`(x + d.x_offset, y + d.y_offset, d.z_offset)` (so the third coordinate of every
displayed point equals its dataset's `z_offset`) and tagged with its dataset's filename;
whereas with a pre-existing flat RGB color entry (the documented input format) for a gene
occurring in two member datasets, `pass_multi_data` instead raises `IndexError` at
`col[:,0,:]` and builds nothing. -/
theorem C7_pass_multi_data_amended {G F : Type} [DecidableEq G]
    (ds : List (VisDataset G F)) (g : G) (d : VisDataset G F)
    (pts : List (ℝ × ℝ)) (c : Point3) (cd0 : List (G × ColorVal)) (g2 : G)
    (d1 d2 : VisDataset G F) (pts1 pts2 : List (ℝ × ℝ))
    (hc : c ∈ transformCoords d pts)
    (hflat : lookupAssoc cd0 g2 = some ColorVal.flat)
    (hd1 : d1.genePoints = [(g2, pts1)]) (hd2 : d2.genePoints = [(g2, pts2)]) :
    (∃ st : VisState G F,
        passMultiDataE ([] : List (G × ColorVal)) ds = Except.ok st
        ∧ lookupAssoc (projDic st.2) g
            = (if ds.any (fun dd => occursIn dd g) then some (geneConcat ds g) else none))
    ∧ transformCoords d pts
        = pts.map (fun p => (p.1 + d.x_offset, p.2 + d.y_offset, d.z_offset))
    ∧ c.2.2 = d.z_offset
    ∧ (entryOf d pts).2 = List.replicate pts.length d.filename
    ∧ passMultiDataE cd0 [d1, d2] = Except.error PyError.indexError := by
  obtain ⟨st, hok, _hg, hproj⟩ := passDatasetsE_ok ds ([], []) goodState_nil
  refine ⟨⟨st, hok, ?_⟩, ?_, ?_, rfl, ?_⟩
  · rw [hproj]
    show lookupAssoc (skeletonMultiData ds) g = _
    unfold skeletonMultiData
    rw [lookup_passMulti_fold]
    cases hb : ds.any (fun dd => occursIn dd g) <;> simp [optExtend, lookupAssoc, hb]
  · simp [transformCoords]
  · rcases List.mem_map.mp hc with ⟨p, _, rfl⟩
    simp
  · have hstep1 : passMultiGeneStep d1 (cd0, ([] : List (G × GEntry F))) (g2, pts1)
        = Except.ok (cd0, [(g2, (transformCoords d1 pts1, ColArr.dim2 pts1.length,
            List.replicate pts1.length d1.filename))]) := by
      simp [passMultiGeneStep, hflat, lookupAssoc, setAssoc]
    have hstep2 :
        passMultiGeneStep d2 (cd0, [(g2, (transformCoords d1 pts1, ColArr.dim2 pts1.length,
            List.replicate pts1.length d1.filename))]) (g2, pts2)
          = Except.error PyError.indexError := by
      simp [passMultiGeneStep, hflat, lookupAssoc]
    show passDatasetsE (cd0, []) [d1, d2] = Except.error PyError.indexError
    simp [passDatasetsE, passGenesE, hd1, hd2, hstep1, hstep2]

/-- C7 counterexample: with a user-supplied color dictionary — here a flat RGB tuple for
gene 0, the format documented in `Window`'s docstring — and a gene present in two member
datasets, `pass_multi_data` raises `IndexError` at `col[:,0,:]` on the gene's second
occurrence; with a nested one-element list value (the format the auto path itself stores,
e.g. left behind in the mutable default dictionary by a previous call) it raises
`ValueError` at `np.concatenate`. In both cases the claimed per-gene concatenation is
never built. -/
theorem C7_pass_multi_data_counterexample :
    passMultiDataE [(0, ColorVal.flat)]
        [(⟨1, 0, 0, 0, [(0, [((0 : ℝ), (0 : ℝ))])]⟩ : VisDataset ℕ ℕ),
         ⟨2, 0, 0, 0, [(0, [((0 : ℝ), (0 : ℝ))])]⟩]
      = Except.error PyError.indexError
    ∧ passMultiDataE [(0, ColorVal.nested)]
        [(⟨1, 0, 0, 0, [(0, [((0 : ℝ), (0 : ℝ))])]⟩ : VisDataset ℕ ℕ),
         ⟨2, 0, 0, 0, [(0, [((0 : ℝ), (0 : ℝ))])]⟩]
      = Except.error PyError.valueError :=
  ⟨rfl, rfl⟩

theorem C7_pass_multi_data_amended_witness :
    ((0 : ℝ) + 1, (0 : ℝ) + 2, (0 : ℝ) + 3).2.2 = (3 : ℝ) :=
  (C7_pass_multi_data_amended
    [(⟨7, 1, 2, 3, [(0, [((0 : ℝ), (0 : ℝ))])]⟩ : VisDataset ℕ ℕ)] 0
    (⟨7, 1, 2, 3, [(0, [((0 : ℝ), (0 : ℝ))])]⟩ : VisDataset ℕ ℕ)
    [((0 : ℝ), (0 : ℝ))] ((0 : ℝ) + 1, (0 : ℝ) + 2, (0 : ℝ) + 3)
    [(0, ColorVal.flat)] 0
    (⟨1, 0, 0, 0, [(0, [((0 : ℝ), (0 : ℝ))])]⟩ : VisDataset ℕ ℕ)
    (⟨2, 0, 0, 0, [(0, [((0 : ℝ), (0 : ℝ))])]⟩ : VisDataset ℕ ℕ)
    [((0 : ℝ), (0 : ℝ))] [((0 : ℝ), (0 : ℝ))]
    (by simp [transformCoords]) rfl rfl rfl).2.2.1

/-! ### Lemmas about `Window.pass_data` on a single `Dataset` -/

/-- C8: constructing `Window` over a single `Dataset` whose generator yields at least one
gene group (i.e. the dataset has at least one point) always raises before any geometry is
shown: `pass_data` reads `self.color_dic[gene]` without a membership check, so a gene
missing from the supplied color dictionary raises `KeyError`, and otherwise the reference
to the never-assigned attribute `self.name` raises `AttributeError`. -/
theorem C8_pass_data_raises {G : Type} [DecidableEq G] (cd : List (G × List ℕ))
    (xo yo zo : ℝ) (g : G) (pts : List (ℝ × ℝ)) (rest : List (G × List (ℝ × ℝ))) :
    windowInitSingleDataset cd xo yo zo ((g, pts) :: rest)
      = Except.error (if (lookupAssoc cd g).isNone
                      then PyError.keyError g
                      else PyError.attributeError) := by
  cases h : lookupAssoc cd g <;>
    simp [windowInitSingleDataset, passData, passDataGene, windowName, h]

/-! ### Lemmas about `MultiDataset.__next__` -/

theorem nextD_index_le {α : Type} (s : IterState α) :
    ((nextD s).2).index ≤ s.datasets.length := by
  unfold nextD
  split
  · simpa using by omega
  · simp

theorem runN_succ {α : Type} (s : IterState α) (n : ℕ) :
    runN s (n + 1) = ((nextD s).1 :: (runN (nextD s).2 n).1, (runN (nextD s).2 n).2) := rfl

theorem runN_drop {α : Type} :
    ∀ (n : ℕ) (ds : List α) (i : ℕ), ds.length = i + n →
    runN ⟨ds, i⟩ (n + 1) = ((ds.drop i).map some ++ [none], ⟨ds, 0⟩) := by
  intro n
  induction n with
  | zero =>
    intro ds i h
    have hge : ¬ i < ds.length := by omega
    simp [runN, nextD, hge, List.drop_eq_nil_of_le (by omega : ds.length ≤ i)]
  | succ n ih =>
    intro ds i h
    have hlt : i < ds.length := by omega
    have hn : nextD ⟨ds, i⟩ = (some (ds.get ⟨i, hlt⟩), ⟨ds, i + 1⟩) := by
      simp [nextD, hlt]
    show runN ⟨ds, i⟩ ((n + 1) + 1) = _
    rw [runN_succ, hn]
    rw [ih ds (i + 1) (by omega), List.drop_eq_getElem_cons hlt, List.map_cons,
      List.cons_append]
    rfl

theorem runN_add {α : Type} :
    ∀ (m n : ℕ) (s : IterState α),
    runN s (m + n)
      = ((runN s m).1 ++ (runN (runN s m).2 n).1, (runN (runN s m).2 n).2) := by
  intro m
  induction m with
  | zero => intro n s; simp [runN]
  | succ m ih =>
    intro n s
    rw [show m + 1 + n = (m + n) + 1 from by omega, runN_succ, ih, runN_succ]
    simp

/-- C9: `MultiDataset.__next__` is a repeatable iterator: starting from index 0, the first
`len` calls return the member datasets in list order, the next call raises `StopIteration`
(returns `none`) and resets the index to 0; it raises exactly when the index has reached
`len(self.datasets)`; the index stays within `0 <= index <= len` after every call; and a
second full iteration yields the same sequence as the first. -/
theorem C9_multidataset_iterator {α : Type} (ds : List α) (i : ℕ)
    (hi : ds.length ≤ i) :
    runN ⟨ds, 0⟩ (ds.length + 1) = (ds.map some ++ [none], ⟨ds, 0⟩)
    ∧ (∀ j (hj : j < ds.length),
        nextD ⟨ds, j⟩ = (some (ds.get ⟨j, hj⟩), ⟨ds, j + 1⟩))
    ∧ nextD ⟨ds, i⟩ = (none, ⟨ds, 0⟩)
    ∧ (∀ s : IterState α, ((nextD s).2).index ≤ s.datasets.length)
    ∧ runN ⟨ds, 0⟩ ((ds.length + 1) + (ds.length + 1))
        = ((ds.map some ++ [none]) ++ (ds.map some ++ [none]), ⟨ds, 0⟩) := by
  have h1 : runN ⟨ds, 0⟩ (ds.length + 1) = (ds.map some ++ [none], ⟨ds, 0⟩) := by
    have h := runN_drop ds.length ds 0 (by omega)
    simpa using h
  refine ⟨h1, ?_, ?_, nextD_index_le, ?_⟩
  · intro j hj
    simp [nextD, hj]
  · have hge : ¬ i < ds.length := by omega
    simp [nextD, hge]
  · rw [runN_add (ds.length + 1) (ds.length + 1)]
    simp [h1]

theorem C9_multidataset_iterator_witness :
    runN (IterState.mk [5, 7] 0) 3 = ([some 5, some 7, none], IterState.mk [5, 7] 0)
    ∧ nextD (IterState.mk [5, 7] 2) = (none, IterState.mk [5, 7] 0) :=
  ⟨(C9_multidataset_iterator [5, 7] 2 (by decide)).1,
   (C9_multidataset_iterator [5, 7] 2 (by decide)).2.2.1⟩

/-! ### Lemmas about `MultiDataset.check_unit` -/

/-- C10: `check_unit` raises an `Exception` if and only if some member dataset's
`unit_scale` differs from the first dataset's; a mismatch only in `area_scale` never
raises, because that check passes a generator to `np.all`, which is always truthy; when no
exception is raised, `unit_scale` and `unit_area` become the first dataset's `unit_scale`
and `area_scale` and the member datasets are unchanged. -/
theorem C10_check_unit (d0 : UDataset) (rest : List UDataset) :
    ((∃ e, check_unit (d0 :: rest) = Except.error e)
        ↔ ∃ d ∈ d0 :: rest, d.unit_scale ≠ d0.unit_scale)
    ∧ ((∀ d ∈ d0 :: rest, d.unit_scale = d0.unit_scale) →
        check_unit (d0 :: rest)
          = Except.ok (d0.unit_scale, d0.area_scale, d0 :: rest)) := by
  have hred : check_unit (d0 :: rest)
      = (if npAllBoolList (((d0 :: rest).map (fun d => d.unit_scale)).map
              (fun i => i == d0.unit_scale)) = false
         then Except.error PyError.unitException
         else Except.ok (d0.unit_scale, d0.area_scale, d0 :: rest)) := rfl
  have hkey :
      npAllBoolList (((d0 :: rest).map (fun d => d.unit_scale)).map
          (fun i => i == d0.unit_scale)) = true
        ↔ ∀ d ∈ d0 :: rest, d.unit_scale = d0.unit_scale := by
    simp [npAllBoolList, List.all_eq_true]
  by_cases hp : ∀ d ∈ d0 :: rest, d.unit_scale = d0.unit_scale
  · have hb := hkey.mpr hp
    have hcu : check_unit (d0 :: rest)
        = Except.ok (d0.unit_scale, d0.area_scale, d0 :: rest) := by
      rw [hred, hb]
      simp
    refine ⟨⟨?_, ?_⟩, fun _ => hcu⟩
    · rintro ⟨e, he⟩
      rw [hcu] at he
      exact absurd he (by simp)
    · rintro ⟨d, hd, hne⟩
      exact absurd (hp d hd) hne
  · have hb :
        npAllBoolList (((d0 :: rest).map (fun d => d.unit_scale)).map
            (fun i => i == d0.unit_scale)) = false := by
      cases hb : npAllBoolList (((d0 :: rest).map (fun d => d.unit_scale)).map
          (fun i => i == d0.unit_scale))
      · rfl
      · exact absurd (hkey.mp hb) hp
    have hcu : check_unit (d0 :: rest) = Except.error PyError.unitException := by
      rw [hred, hb]
      simp
    refine ⟨⟨fun _ => ?_, fun _ => ⟨_, hcu⟩⟩, fun hforall => absurd hforall hp⟩
    push_neg at hp
    exact hp

theorem C10_check_unit_witness :
    check_unit [⟨1, 1⟩, ⟨1, 5⟩] = Except.ok (1, 1, [⟨1, 1⟩, ⟨1, 5⟩]) :=
  (C10_check_unit ⟨1, 1⟩ [⟨1, 5⟩]).2 (by decide)

end FISHscale
